import Mathlib

/-!
Shallow embedding of RethinkDB's admin datum-adapter layer
(`src/clustering/administration/datum_adapter.cc`), the `datum_string_t`
string type (`rdb_protocol/datum_string.hpp`) and the metadata-snapshot
interfaces they consume.  C++ `std::string` values are modelled as
`List Char`; byte buffers as `List Nat` (each element a byte value);
fallible functions returning `bool` with out-parameters become functions
into `Except`/`Option`, except where a claim is about the out-parameter
discipline itself, in which case the out-parameters are threaded as an
explicit state record.
-/

namespace RethinkDB

/-! ### `datum_string_t` (rdb_protocol/datum_string.hpp)

The header in the sources describes the layout: a shared buffer holding
the length of the string in varint encoding, followed by the actual
string content.  The implementation file is not part of the sources, so
the varint codec and the constructors are modelled from the spec. -/

/-- Modelled from the spec: the variable-length ("varint") length prefix
of §4.1 — little-endian base-128 groups, each non-final byte carrying a
continuation high bit. -/
def varintEncode (n : Nat) : List Nat :=
  if h : n < 128 then [n]
  else (n % 128 + 128) :: varintEncode (n / 128)
  termination_by n
  decreasing_by
    exact Nat.div_lt_self (by omega) (by omega)

/-- Modelled from the spec: decoding of the varint length prefix;
returns the decoded number and the remaining bytes. -/
def varintDecode : List Nat → Option (Nat × List Nat)
  | [] => none
  | b :: rest =>
    if b < 128 then some (b, rest)
    else
      match varintDecode rest with
      | some (m, r) => some (m * 128 + (b - 128), r)
      | none => none

/-- Type `datum_string_t` is a length-prefixed ("Pascal style") non-mutable
string: the buffer holds the length in varint encoding, followed by the
string content. -/
structure datum_string_t where
  data_ : List Nat
deriving DecidableEq

/-- Modelled from the spec: `datum_string_t(size_t _size, const char *_data)`
creates a `datum_string_t` with its content copied from `_data` —
exactly `_size` bytes, never scanning for a terminator. -/
def datum_string_t.from_buf (size : Nat) (data : List Nat) : datum_string_t :=
  ⟨varintEncode size ++ data.take size⟩

/-- Accessor `size()`: the length stored in the varint prefix. -/
def datum_string_t.size (s : datum_string_t) : Nat :=
  match varintDecode s.data_ with
  | some (n, _) => n
  | none => 0

/-- Accessor `data()`: the content bytes following the varint prefix. -/
def datum_string_t.data (s : datum_string_t) : List Nat :=
  match varintDecode s.data_ with
  | some (_, r) => r
  | none => []

theorem varintDecode_encode (n : Nat) (rest : List Nat) :
    varintDecode (varintEncode n ++ rest) = some (n, rest) := by
  induction n using Nat.strong_induction_on with
  | _ n ih =>
    rw [varintEncode]
    by_cases h : n < 128
    · simp [h, varintDecode]
    · rw [dif_neg h]
      have hlt : n / 128 < n := Nat.div_lt_self (by omega) (by omega)
      have hne : ¬ (n % 128 + 128 < 128) := by omega
      simp only [List.cons_append, List.append_eq, varintDecode, ih (n / 128) hlt, hne,
        if_false, Option.some.injEq, Prod.mk.injEq]
      exact ⟨by omega, trivial⟩

/-! ### UUIDs (`uuid_u`, `uuid_to_str`, `str_to_uuid`)

`uuid_u` and its text codec live outside the sources; they are modelled
from the spec: an opaque fixed-size identifier whose canonical text form
is lowercase-hyphenated hex in five groups of 8-4-4-4-12 digits. -/

/-- One lowercase hex digit. -/
def hexChar (d : Nat) : Char :=
  if d < 10 then Char.ofNat (d + 48) else Char.ofNat (d - 10 + 97)

/-- The value of a hex digit character, `none` for a non-digit. -/
def hexVal (c : Char) : Option Nat :=
  if 48 ≤ c.toNat ∧ c.toNat ≤ 57 then some (c.toNat - 48)
  else if 97 ≤ c.toNat ∧ c.toNat ≤ 102 then some (c.toNat - 97 + 10)
  else none

/-- Fixed-width big-endian hex rendering (`w` digits of `n`). -/
def toHex : Nat → Nat → List Char
  | 0, _ => []
  | w + 1, n => toHex w (n / 16) ++ [hexChar (n % 16)]

/-- Consume exactly `w` hex digits from the front of `s`, accumulating
their big-endian value onto `acc`; returns the value and the rest. -/
def readHexFixed : Nat → Nat → List Char → Option (Nat × List Char)
  | 0, acc, s => some (acc, s)
  | _ + 1, _, [] => none
  | w + 1, acc, c :: s =>
    match hexVal c with
    | some d => readHexFixed w (acc * 16 + d) s
    | none => none

/-- Modelled from the spec: `uuid_u`, an opaque fixed-size identifier,
recorded as the five groups of its canonical 8-4-4-4-12 text form. -/
structure uuid_u where
  g1 : Fin (16 ^ 8)
  g2 : Fin (16 ^ 4)
  g3 : Fin (16 ^ 4)
  g4 : Fin (16 ^ 4)
  g5 : Fin (16 ^ 12)
deriving DecidableEq

/-- Modelled from the spec: `uuid_to_str` renders the canonical
lowercase-hyphenated text form. -/
def uuid_to_str (u : uuid_u) : List Char :=
  toHex 8 u.g1.val ++ '-' :: (toHex 4 u.g2.val ++ '-' :: (toHex 4 u.g3.val ++
    '-' :: (toHex 4 u.g4.val ++ '-' :: toHex 12 u.g5.val)))

/-- Modelled from the spec: `str_to_uuid` parses exactly the canonical
lowercase-hyphenated form, failing on anything malformed. -/
def str_to_uuid (s : List Char) : Option uuid_u :=
  match readHexFixed 8 0 s with
  | some (a, '-' :: s1) =>
    match readHexFixed 4 0 s1 with
    | some (b, '-' :: s2) =>
      match readHexFixed 4 0 s2 with
      | some (c, '-' :: s3) =>
        match readHexFixed 4 0 s3 with
        | some (d, '-' :: s4) =>
          match readHexFixed 12 0 s4 with
          | some (e, []) =>
            if h : a < 16 ^ 8 ∧ b < 16 ^ 4 ∧ c < 16 ^ 4 ∧ d < 16 ^ 4 ∧ e < 16 ^ 12 then
              some ⟨⟨a, h.1⟩, ⟨b, h.2.1⟩, ⟨c, h.2.2.1⟩, ⟨d, h.2.2.2.1⟩, ⟨e, h.2.2.2.2⟩⟩
            else none
          | _ => none
        | _ => none
      | _ => none
    | _ => none
  | _ => none

theorem hexVal_hexChar (d : Nat) (h : d < 16) : hexVal (hexChar d) = some d := by
  interval_cases d <;> rfl

theorem readHexFixed_add (w1 w2 : Nat) :
    ∀ (acc : Nat) (s : List Char),
      readHexFixed (w1 + w2) acc s =
        match readHexFixed w1 acc s with
        | some (v, r) => readHexFixed w2 v r
        | none => none := by
  induction w1 with
  | zero =>
    intro acc s
    simp [Nat.zero_add, readHexFixed]
  | succ w ih =>
    intro acc s
    rw [Nat.succ_add]
    cases s with
    | nil => simp [readHexFixed]
    | cons c s' =>
      cases h : hexVal c with
      | none => simp [readHexFixed, h]
      | some d => simp only [readHexFixed, h]; exact ih (acc * 16 + d) s'

theorem readHexFixed_toHex (w : Nat) :
    ∀ (n acc : Nat) (rest : List Char), n < 16 ^ w →
      readHexFixed w acc (toHex w n ++ rest) = some (acc * 16 ^ w + n, rest) := by
  induction w with
  | zero =>
    intro n acc rest hn
    have hn0 : n = 0 := by omega
    subst hn0
    simp [toHex, readHexFixed]
  | succ w ih =>
    intro n acc rest hn
    have hdiv : n / 16 < 16 ^ w := by
      rw [Nat.div_lt_iff_lt_mul (by omega)]
      calc n < 16 ^ (w + 1) := hn
        _ = 16 ^ w * 16 := by ring
    have hmod : n % 16 < 16 := Nat.mod_lt _ (by omega)
    rw [toHex, List.append_assoc, List.singleton_append, readHexFixed_add w 1,
      ih (n / 16) acc (hexChar (n % 16) :: rest) hdiv]
    simp only [readHexFixed, hexVal_hexChar _ hmod, Option.some.injEq, Prod.mk.injEq]
    refine ⟨?_, trivial⟩
    rw [pow_succ, ← mul_assoc]
    generalize acc * 16 ^ w = m
    omega

theorem str_to_uuid_uuid_to_str (u : uuid_u) :
    str_to_uuid (uuid_to_str u) = some u := by
  obtain ⟨⟨a, ha⟩, ⟨b, hb⟩, ⟨c, hc⟩, ⟨d, hd⟩, ⟨e, he⟩⟩ := u
  have h1 := readHexFixed_toHex 8 a 0
    ('-' :: (toHex 4 b ++ '-' :: (toHex 4 c ++ '-' :: (toHex 4 d ++ '-' :: toHex 12 e)))) ha
  have h2 := readHexFixed_toHex 4 b 0
    ('-' :: (toHex 4 c ++ '-' :: (toHex 4 d ++ '-' :: toHex 12 e))) hb
  have h3 := readHexFixed_toHex 4 c 0 ('-' :: (toHex 4 d ++ '-' :: toHex 12 e)) hc
  have h4 := readHexFixed_toHex 4 d 0 ('-' :: toHex 12 e) hd
  have h5 := readHexFixed_toHex 12 e 0 [] he
  rw [List.append_nil] at h5
  simp only [Nat.zero_mul, Nat.zero_add] at h1 h2 h3 h4 h5
  simp only [uuid_to_str, str_to_uuid, h1, h2, h3, h4, h5]
  norm_num at ha hb hc hd he
  simp [ha, hb, hc, hd, he]

/-! ### Names and datums -/

/-- Modelled from the spec: the fixed valid character set of
`name_string_t` (letters, digits and underscore). -/
def name_valid_char (c : Char) : Bool := c.isAlphanum || c = '_'

/-- Type `name_string_t`: a string restricted to a fixed valid character
set; validity is checked at construction from untrusted input. -/
structure name_string_t where
  str : List Char
deriving DecidableEq

/-- Modelled from the spec: `name_string_t::assign_value` accepts the
string only when every character is in the valid set. -/
def name_string_t.assign_value (s : List Char) : Option name_string_t :=
  if s.all name_valid_char then some ⟨s⟩ else none

/-- Modelled from the spec: `name_string_t::valid_char_msg`, the text
naming the character-set rule in name-format errors. -/
def name_string_t.valid_char_msg : List Char :=
  "use A-Z, a-z, 0-9, and _ only".toList

/-- Modelled from the spec: `name_string_t::guarantee_valid`, used on
trusted literals such as the deleted-database sentinel. -/
def name_string_t.guarantee_valid (s : List Char) : name_string_t := ⟨s⟩

/-- The datum value tree (kinds per §3); this layer only reads it
through narrow accessors. -/
inductive datum_t where
  | R_NULL
  | R_BOOL (b : Bool)
  | R_NUM (q : Rat)
  | R_STR (s : List Char)
  | R_ARRAY (elems : List datum_t)
  | R_OBJECT (fields : List (List Char × datum_t))

instance : Inhabited datum_t := ⟨.R_NULL⟩

/-- Modelled from the spec: `datum_t::print()`, a rendering of the
offending datum used inside error messages; only its presence matters
to this layer, so the rendering is kept minimal. -/
def datum_t.print : datum_t → List Char
  | .R_NULL => "null".toList
  | .R_BOOL true => "true".toList
  | .R_BOOL false => "false".toList
  | .R_NUM _ => "<number>".toList
  | .R_STR s => '"' :: (s ++ ['"'])
  | .R_ARRAY _ => "<array>".toList
  | .R_OBJECT _ => "<object>".toList

/-- Association lookup among an object's fields (first match). -/
def obj_find : List (List Char × datum_t) → List Char → Option datum_t
  | [], _ => none
  | (k, v) :: rest, key => if k = key then some v else obj_find rest key

/-- Accessor `datum_t::get_field(key, NOTHROW)`: `none` models the empty datum
(`has() == false`) returned when the field is absent. -/
def datum_t.get_field (d : datum_t) (key : List Char) : Option datum_t :=
  match d with
  | .R_OBJECT fields => obj_find fields key
  | _ => none

inductive admin_identifier_format_t where
  | name
  | uuid
deriving DecidableEq

/-! ### Scalar converters (datum_adapter.cc) -/

def convert_string_to_datum (value : List Char) : datum_t :=
  .R_STR value

def convert_string_from_datum (datum : datum_t) : Except (List Char) (List Char) :=
  match datum with
  | .R_STR s => .ok s
  | d => .error ("Expected a string; got ".toList ++ d.print)

def convert_name_to_datum (value : name_string_t) : datum_t :=
  .R_STR value.str

def convert_name_from_datum (datum : datum_t) (what : List Char) :
    Except (List Char) name_string_t :=
  match datum with
  | .R_STR s =>
    match name_string_t.assign_value s with
    | some value => .ok value
    | none =>
      .error ((datum_t.R_STR s).print ++ " is not a valid ".toList ++ what ++
        "; ".toList ++ name_string_t.valid_char_msg)
  | d => .error ("Expected a ".toList ++ what ++ "; got ".toList ++ d.print)

def convert_uuid_to_datum (value : uuid_u) : datum_t :=
  .R_STR (uuid_to_str value)

def convert_uuid_from_datum (datum : datum_t) : Except (List Char) uuid_u :=
  match datum with
  | .R_STR s =>
    match str_to_uuid s with
    | some value => .ok value
    | none => .error ("Expected a UUID; got ".toList ++ (datum_t.R_STR s).print)
  | d => .error ("Expected a UUID; got ".toList ++ d.print)

def convert_name_or_uuid_to_datum (name : name_string_t) (uuid : uuid_u)
    (identifier_format : admin_identifier_format_t) : datum_t :=
  match identifier_format with
  | .name => convert_name_to_datum name
  | .uuid => convert_uuid_to_datum uuid

/-! ### The metadata snapshot -/

abbrev server_id_t := uuid_u
abbrev database_id_t := uuid_u
abbrev namespace_id_t := uuid_u

/-- Type `deletable_t`: a metadata record plus its Live/Deleted tombstone
flag; never physically removed from the snapshot. -/
structure deletable_t (α : Type) where
  is_deleted : Bool
  get_ref : α

/-- Lookup `std::map::find` over an id-keyed snapshot map (unique keys; first
match). -/
def map_find {α : Type} : List (uuid_u × α) → uuid_u → Option α
  | [], _ => none
  | (k, v) :: rest, key => if k = key then some v else map_find rest key

/-- The `versioned_t` wrappers are collapsed: a field holds its
`get_ref()` value directly. -/
structure database_semilattice_metadata_t where
  name : name_string_t

structure databases_semilattice_metadata_t where
  databases : List (database_id_t × deletable_t database_semilattice_metadata_t)

structure namespace_semilattice_metadata_t where
  name : name_string_t
  database : database_id_t

structure cluster_semilattice_metadata_t where
  rdb_namespaces : List (namespace_id_t × deletable_t namespace_semilattice_metadata_t)
  databases : databases_semilattice_metadata_t

/-- Modelled from the spec: the server snapshot consumed through
`server_config_client_t` — per server id a name plus tombstone flag. -/
structure server_config_client_t where
  servers : List (server_id_t × deletable_t name_string_t)

/-- Modelled from the spec: `get_name_for_server_id` yields the name of
a Live entry; a Deleted entry is indistinguishable from a nonexistent
one. -/
def get_name_for_server_id (client : server_config_client_t)
    (server_id : server_id_t) : Option name_string_t :=
  match map_find client.servers server_id with
  | some entry => if entry.is_deleted then none else some entry.get_ref
  | none => none

/-- Modelled from the spec: the reverse index behind
`get_name_to_server_id_map` — per the tombstone policy it holds exactly
the Live entries, so this is the multimap equal-range for `name`. -/
def name_to_server_id_map (client : server_config_client_t)
    (name : name_string_t) : List server_id_t :=
  (client.servers.filter
    (fun p => !p.2.is_deleted && decide (p.2.get_ref = name))).map Prod.fst

/-! ### Identifier resolution (datum_adapter.cc) -/

/-- Function `convert_server_id_to_datum`: the two out-parameters on success;
`none` is the `false` return (no resolvable name for the id). -/
def convert_server_id_to_datum (server_id : server_id_t)
    (identifier_format : admin_identifier_format_t)
    (server_config_client : server_config_client_t) :
    Option (datum_t × name_string_t) :=
  match get_name_for_server_id server_config_client server_id with
  | none => none
  | some name =>
    some (convert_name_or_uuid_to_datum name server_id identifier_format, name)

/-- The out-parameters of `convert_server_id_from_datum`, threaded
explicitly so that writes (and their absence) are observable. -/
structure server_id_outs where
  server_id_out : server_id_t
  server_name_out : name_string_t
  error_out : List Char

/-- Function `convert_server_id_from_datum`: returns the `bool` result together
with the final state of the out-parameters. -/
def convert_server_id_from_datum (server_name_or_uuid : datum_t)
    (identifier_format : admin_identifier_format_t)
    (server_config_client : server_config_client_t)
    (outs : server_id_outs) : Bool × server_id_outs :=
  match identifier_format with
  | .name =>
    match convert_name_from_datum server_name_or_uuid ("server name".toList) with
    | .error e => (false, { outs with error_out := e })
    | .ok name =>
      match name_to_server_id_map server_config_client name with
      | [] =>
        (false, { outs with error_out :=
          "Server `".toList ++ name.str ++ "` does not exist.".toList })
      | [server_id] =>
        (true, { outs with server_id_out := server_id, server_name_out := name })
      | _ :: _ :: _ =>
        (false, { outs with error_out :=
          "Server `".toList ++ name.str ++
            "` is ambiguous; there are multiple servers with that name.".toList })
  | .uuid =>
    match convert_uuid_from_datum server_name_or_uuid with
    | .error e => (false, { outs with error_out := e })
    | .ok id =>
      match get_name_for_server_id server_config_client id with
      | none =>
        (false, { outs with error_out :=
          "There is no server with UUID `".toList ++ uuid_to_str id ++ "`.".toList })
      | some name =>
        (true, { outs with server_id_out := id, server_name_out := name })

/-- Function `convert_table_id_to_datums`: the four out-parameters on success
(table datum, table name, database datum, database name); `none` is the
`false` return (table entry absent or tombstoned). -/
def convert_table_id_to_datums (table_id : namespace_id_t)
    (identifier_format : admin_identifier_format_t)
    (metadata : cluster_semilattice_metadata_t) :
    Option (datum_t × name_string_t × datum_t × name_string_t) :=
  match map_find metadata.rdb_namespaces table_id with
  | none => none
  | some entry =>
    if entry.is_deleted then none
    else
      let table_name := entry.get_ref.name
      let db_id := entry.get_ref.database
      let db_name :=
        match map_find metadata.databases.databases db_id with
        | none => name_string_t.guarantee_valid ("__deleted_database__".toList)
        | some db_entry =>
          if db_entry.is_deleted then
            name_string_t.guarantee_valid ("__deleted_database__".toList)
          else db_entry.get_ref.name
      some (convert_name_or_uuid_to_datum table_name table_id identifier_format,
        table_name,
        convert_name_or_uuid_to_datum db_name db_id identifier_format,
        db_name)

/-- Result of a function whose body contains a `guarantee` assertion:
`crashed` is the assertion firing (process abort), `failed` the `false`
return, `ok` the `true` return with the out-parameters. -/
inductive guarded_result (α : Type) where
  | crashed
  | failed
  | ok (val : α)

/-- Function `convert_database_id_to_datum`: `guarantee`s that the id has an
entry, returns `false` only for a tombstoned entry. -/
def convert_database_id_to_datum (db_id : database_id_t)
    (identifier_format : admin_identifier_format_t)
    (metadata : cluster_semilattice_metadata_t) :
    guarded_result (datum_t × name_string_t) :=
  match map_find metadata.databases.databases db_id with
  | none => .crashed
  | some entry =>
    if entry.is_deleted then .failed
    else
      .ok (convert_name_or_uuid_to_datum entry.get_ref.name db_id identifier_format,
        entry.get_ref.name)

/-- Modelled from the spec: the database name search performed through
`const_metadata_searcher_t::find_uniq` — the snapshot entries whose name
equals the parsed name and whose tombstone flag is Live, in snapshot
order. -/
def db_live_matches (metadata : cluster_semilattice_metadata_t)
    (name : name_string_t) : List database_id_t :=
  (metadata.databases.databases.filter
    (fun p => !p.2.is_deleted && decide (p.2.get_ref.name = name))).map Prod.fst

/-- Function `convert_database_id_from_datum`; the zero/one/many outcome of the
name search is reported through `check_metadata_status`, modelled from
the spec: NotFound and Ambiguous messages both citing the name. -/
def convert_database_id_from_datum (db_name_or_uuid : datum_t)
    (identifier_format : admin_identifier_format_t)
    (metadata : cluster_semilattice_metadata_t) :
    Except (List Char) (database_id_t × name_string_t) :=
  match identifier_format with
  | .name =>
    match convert_name_from_datum db_name_or_uuid ("database name".toList) with
    | .error e => .error e
    | .ok name =>
      match db_live_matches metadata name with
      | [] => .error ("Database `".toList ++ name.str ++ "` does not exist.".toList)
      | [db_id] => .ok (db_id, name)
      | _ :: _ :: _ =>
        .error ("Database `".toList ++ name.str ++
          "` is ambiguous; there are multiple databases with that name.".toList)
  | .uuid =>
    match convert_uuid_from_datum db_name_or_uuid with
    | .error e => .error e
    | .ok db_id =>
      match map_find metadata.databases.databases db_id with
      | none =>
        .error ("There is no database with UUID `".toList ++
          uuid_to_str db_id ++ "`.".toList)
      | some entry =>
        if entry.is_deleted then
          .error ("There is no database with UUID `".toList ++
            uuid_to_str db_id ++ "`.".toList)
        else .ok (db_id, entry.get_ref.name)

/-! ### The strict-schema object decoder -/

/-- Type `converter_from_datum_object_t`: the source datum and the unseen
("extra") key set.  The `std::set` is modelled as the list of the
object's keys (unique within an object datum), in object order. -/
structure converter_from_datum_object_t where
  datum : datum_t
  extra_keys : List (List Char)

namespace converter_from_datum_object_t

/-- Method `init`: fails unless the datum is of object kind; on success the
unseen set holds every key present. -/
def init (d : datum_t) : Except (List Char) converter_from_datum_object_t :=
  match d with
  | .R_OBJECT fields => .ok ⟨.R_OBJECT fields, fields.map Prod.fst⟩
  | d' => .error ("Expected an object; got ".toList ++ d'.print)

/-- Method `get`: erases the key from the unseen set (whether or not present),
then fails if the field is absent. -/
def get (c : converter_from_datum_object_t) (key : List Char) :
    converter_from_datum_object_t × Except (List Char) datum_t :=
  let c' := { c with extra_keys := c.extra_keys.filter (fun k => decide (k ≠ key)) }
  match c.datum.get_field key with
  | some v => (c', .ok v)
  | none =>
    (c', .error ("Expected a field named `".toList ++ key ++ "`.".toList))

/-- Method `get_optional`: same erasure, never fails; `none` is the missing
marker (a datum with `has() == false`). -/
def get_optional (c : converter_from_datum_object_t) (key : List Char) :
    converter_from_datum_object_t × Option datum_t :=
  ({ c with extra_keys := c.extra_keys.filter (fun k => decide (k ≠ key)) },
    c.datum.get_field key)

/-- Method `has`: presence check; the state is returned untouched. -/
def has (c : converter_from_datum_object_t) (key : List Char) :
    Bool × converter_from_datum_object_t :=
  ((c.datum.get_field key).isSome, c)

/-- Method `check_no_extra_keys`: fails when the unseen set is non-empty,
appending " " plus each unconsumed key to the message. -/
def check_no_extra_keys (c : converter_from_datum_object_t) :
    Except (List Char) Unit :=
  if c.extra_keys.isEmpty then .ok ()
  else
    .error (c.extra_keys.foldl (fun acc k => acc ++ ' ' :: k)
      "Unexpected key(s):".toList)

end converter_from_datum_object_t

/-- Predicate: `msg` cites `name`: the name occurs contiguously inside the
message. -/
def cites (name msg : List Char) : Prop :=
  ∃ pre post, msg = pre ++ name ++ post

/-! ### Helper lemmas -/

theorem foldl_space_append (l : List (List Char)) :
    ∀ acc : List Char,
      l.foldl (fun acc k => acc ++ ' ' :: k) acc =
        acc ++ (l.map (fun k => ' ' :: k)).flatten := by
  induction l with
  | nil => intro acc; simp
  | cons x xs ih => intro acc; simp [ih, List.append_assoc]

theorem cites_of_mem_foldl (k : List Char) (l : List (List Char)) (acc : List Char)
    (hk : k ∈ l) :
    cites k (l.foldl (fun acc k => acc ++ ' ' :: k) acc) := by
  obtain ⟨s, t, rfl⟩ := List.append_of_mem hk
  rw [foldl_space_append]
  refine ⟨acc ++ (s.map (fun k => ' ' :: k)).flatten ++ [' '],
    (t.map (fun k => ' ' :: k)).flatten, ?_⟩
  simp [List.append_assoc]

theorem obj_find_mem (fields : List (List Char × datum_t)) (key : List Char)
    (v : datum_t) (h : obj_find fields key = some v) :
    key ∈ fields.map Prod.fst := by
  induction fields with
  | nil => exact Option.noConfusion h
  | cons p rest ih =>
    obtain ⟨k', v'⟩ := p
    simp only [obj_find] at h
    by_cases hk : k' = key
    · subst hk
      exact List.mem_cons_self _ _
    · rw [if_neg hk] at h
      exact List.mem_cons_of_mem _ (ih h)

/-! ### Concrete sample snapshots used by witnesses and counterexamples -/

def uuid0 : uuid_u :=
  ⟨⟨0, by norm_num⟩, ⟨0, by norm_num⟩, ⟨0, by norm_num⟩, ⟨0, by norm_num⟩, ⟨0, by norm_num⟩⟩

def uuid1 : uuid_u :=
  ⟨⟨1, by norm_num⟩, ⟨0, by norm_num⟩, ⟨0, by norm_num⟩, ⟨0, by norm_num⟩, ⟨0, by norm_num⟩⟩

def uuid2 : uuid_u :=
  ⟨⟨2, by norm_num⟩, ⟨0, by norm_num⟩, ⟨0, by norm_num⟩, ⟨0, by norm_num⟩, ⟨0, by norm_num⟩⟩

def name_a : name_string_t := ⟨"a".toList⟩

def name_t : name_string_t := ⟨"t".toList⟩

def outs0 : server_id_outs := ⟨uuid0, ⟨[]⟩, []⟩

def client_one : server_config_client_t := ⟨[(uuid1, ⟨false, name_a⟩)]⟩

def client_dup : server_config_client_t :=
  ⟨[(uuid1, ⟨false, name_a⟩), (uuid2, ⟨false, name_a⟩)]⟩

def client_empty : server_config_client_t := ⟨[]⟩

def meta_live : cluster_semilattice_metadata_t := ⟨[], ⟨[(uuid1, ⟨false, ⟨name_a⟩⟩)]⟩⟩

def meta_tomb : cluster_semilattice_metadata_t := ⟨[], ⟨[(uuid1, ⟨true, ⟨name_a⟩⟩)]⟩⟩

def meta_dup : cluster_semilattice_metadata_t :=
  ⟨[], ⟨[(uuid1, ⟨false, ⟨name_a⟩⟩), (uuid2, ⟨false, ⟨name_a⟩⟩)]⟩⟩

def meta_table : cluster_semilattice_metadata_t :=
  ⟨[(uuid2, ⟨false, ⟨name_t, uuid1⟩⟩)], ⟨[(uuid1, ⟨true, ⟨name_a⟩⟩)]⟩⟩

def conv_a : converter_from_datum_object_t :=
  ⟨.R_OBJECT [("a".toList, .R_NULL)], ["a".toList]⟩

def conv_c : converter_from_datum_object_t :=
  ⟨.R_OBJECT [("c".toList, .R_NUM 3)], ["c".toList]⟩

/-! ### Claim theorems -/

/-- C8: constructing a `datum_string_t` from any byte sequence
(sequences with embedded zero bytes included) and reading it back via
`data`/`size` yields exactly those bytes and that length; content is
never truncated at a zero byte. -/
theorem C8_datum_string_exact_roundtrip (s : List Nat) :
    (datum_string_t.from_buf s.length s).size = s.length ∧
    (datum_string_t.from_buf s.length s).data = s := by
  have h : varintDecode (varintEncode s.length ++ s) = some (s.length, s) :=
    varintDecode_encode s.length s
  exact ⟨by simp [datum_string_t.size, datum_string_t.from_buf, h],
    by simp [datum_string_t.data, datum_string_t.from_buf, h]⟩

/-- C9: `convert_database_id_to_datum` hits its `guarantee` (crashes)
exactly when the id has no entry in the snapshot at all; the `false`
return is reserved for a present-but-tombstoned entry, so with the id
present the assertion never fires. -/
theorem C9_database_encode_guarantee (metadata : cluster_semilattice_metadata_t)
    (db_id : database_id_t) (identifier_format : admin_identifier_format_t) :
    (map_find metadata.databases.databases db_id = none ↔
      convert_database_id_to_datum db_id identifier_format metadata = .crashed) ∧
    (convert_database_id_to_datum db_id identifier_format metadata = .failed ↔
      ∃ entry, map_find metadata.databases.databases db_id = some entry ∧
        entry.is_deleted = true) := by
  cases h : map_find metadata.databases.databases db_id with
  | none => simp [convert_database_id_to_datum, h]
  | some entry =>
    cases hd : entry.is_deleted with
    | false => simp [convert_database_id_to_datum, h, hd]
    | true => simp [convert_database_id_to_datum, h, hd]

/-- C6: `get_optional` never fails (it has no error outcome at all),
for every key it consumes the key from the unseen set exactly as `get`
does, and an absent key yields the missing marker `none`, which is
distinguishable from a present explicit null (`some R_NULL`). -/
theorem C6_get_optional_semantics (c : converter_from_datum_object_t)
    (key : List Char) :
    ((c.get_optional key).1 = (c.get key).1) ∧
    ((c.get_optional key).1.extra_keys =
      c.extra_keys.filter (fun k => decide (k ≠ key))) ∧
    (c.datum.get_field key = none →
      (c.get_optional key).2 = none ∧ (c.get_optional key).2 ≠ some .R_NULL) := by
  refine ⟨?_, rfl, fun hmiss => ⟨?_, ?_⟩⟩
  · cases h : c.datum.get_field key <;>
      simp [converter_from_datum_object_t.get_optional,
        converter_from_datum_object_t.get, h]
  · simp [converter_from_datum_object_t.get_optional, hmiss]
  · simp [converter_from_datum_object_t.get_optional, hmiss]

/-- C6 witness: on an object with only field "a", `get_optional` of a
missing key consumes like `get`, returns the missing marker, and that
marker is not a present null. -/
theorem C6_witness :
    ((conv_a.get_optional ("missing".toList)).1 =
      (conv_a.get ("missing".toList)).1) ∧
    ((conv_a.get_optional ("missing".toList)).1.extra_keys =
      conv_a.extra_keys.filter (fun k => decide (k ≠ "missing".toList))) ∧
    ((conv_a.get_optional ("missing".toList)).2 = none ∧
      (conv_a.get_optional ("missing".toList)).2 ≠ some .R_NULL) := by
  have h := C6_get_optional_semantics conv_a ("missing".toList)
  exact ⟨h.1, h.2.1, h.2.2 rfl⟩

/-- C7: `has` is a pure peek — the decoder state it returns is the very
state it was given — so a key present in the object of a freshly
initialized decoder is still reported as unconsumed by a subsequent
`check_no_extra_keys`. -/
theorem C7_has_does_not_consume (fields : List (List Char × datum_t))
    (c : converter_from_datum_object_t) (key : List Char) (v : datum_t)
    (hinit : converter_from_datum_object_t.init (.R_OBJECT fields) = .ok c)
    (hpresent : (datum_t.R_OBJECT fields).get_field key = some v) :
    ((c.has key).2 = c) ∧
    ∃ msg, (c.has key).2.check_no_extra_keys = .error msg ∧ cites key msg := by
  have hc : (⟨.R_OBJECT fields, fields.map Prod.fst⟩ :
      converter_from_datum_object_t) = c := by
    have := hinit
    simp only [converter_from_datum_object_t.init, Except.ok.injEq] at this
    exact this
  subst hc
  have hk : key ∈ fields.map Prod.fst :=
    obj_find_mem _ _ _ (by simpa [datum_t.get_field] using hpresent)
  have hne : (fields.map Prod.fst).isEmpty = false := by
    cases hmap : fields.map Prod.fst with
    | nil => rw [hmap] at hk; cases hk
    | cons x xs => simp
  refine ⟨rfl, (fields.map Prod.fst).foldl (fun acc k => acc ++ ' ' :: k)
    "Unexpected key(s):".toList, ?_, ?_⟩
  · simp [converter_from_datum_object_t.has,
      converter_from_datum_object_t.check_no_extra_keys, hne]
  · exact cites_of_mem_foldl _ _ _ hk

/-- C7 witness: on the object datum with single field "x", `has "x"`
returns the state unchanged and `check_no_extra_keys` still reports
"x". -/
theorem C7_witness :
    (((⟨.R_OBJECT [("x".toList, .R_NULL)], ["x".toList]⟩ :
        converter_from_datum_object_t).has ("x".toList)).2 =
      ⟨.R_OBJECT [("x".toList, .R_NULL)], ["x".toList]⟩) ∧
    ∃ msg, ((⟨.R_OBJECT [("x".toList, .R_NULL)], ["x".toList]⟩ :
        converter_from_datum_object_t).has ("x".toList)).2.check_no_extra_keys =
          .error msg ∧ cites ("x".toList) msg :=
  C7_has_does_not_consume [("x".toList, .R_NULL)] _ "x".toList .R_NULL rfl rfl

/-- C5: `check_no_extra_keys` fails exactly when the unseen-key set is
non-empty, and on failure its message mentions every unconsumed key. -/
theorem C5_check_no_extra_keys_complete (c : converter_from_datum_object_t) :
    ((∃ msg, c.check_no_extra_keys = .error msg) ↔ c.extra_keys ≠ []) ∧
    (∀ msg, c.check_no_extra_keys = .error msg →
      ∀ k, k ∈ c.extra_keys → cites k msg) := by
  constructor
  · constructor
    · rintro ⟨msg, hmsg⟩ hnil
      simp [converter_from_datum_object_t.check_no_extra_keys, hnil] at hmsg
    · intro hne
      have hb : c.extra_keys.isEmpty = false := by
        cases hek : c.extra_keys with
        | nil => exact absurd hek hne
        | cons x xs => simp
      exact ⟨c.extra_keys.foldl (fun acc k => acc ++ ' ' :: k)
          "Unexpected key(s):".toList,
        by simp [converter_from_datum_object_t.check_no_extra_keys, hb]⟩
  · intro msg hmsg k hk
    have hb : c.extra_keys.isEmpty = false := by
      cases hek : c.extra_keys with
      | nil => rw [hek] at hk; cases hk
      | cons x xs => simp
    simp only [converter_from_datum_object_t.check_no_extra_keys, hb,
      Bool.false_eq_true, if_false, Except.error.injEq] at hmsg
    exact hmsg ▸ cites_of_mem_foldl _ _ _ hk

/-- C5 witness: a decoder state whose unseen set is exactly ["c"] fails
`check_no_extra_keys` with a message citing "c". -/
theorem C5_witness :
    conv_c.extra_keys ≠ [] ∧
    ∃ msg, conv_c.check_no_extra_keys = .error msg ∧ cites ("c".toList) msg := by
  have h := C5_check_no_extra_keys_complete conv_c
  have hne : conv_c.extra_keys ≠ [] := by simp [conv_c]
  obtain ⟨msg, hmsg⟩ := h.1.mpr hne
  exact ⟨hne, msg, hmsg, h.2 msg hmsg _ (by simp [conv_c])⟩

/-- A valid name parses back to itself. -/
theorem parse_valid_name (name : name_string_t) (what : List Char)
    (hvalid : name.str.all name_valid_char = true) :
    convert_name_from_datum (.R_STR name.str) what = .ok name := by
  obtain ⟨str⟩ := name
  simp only [name_string_t.str] at hvalid
  simp [convert_name_from_datum, name_string_t.assign_value, hvalid]

/-- C2: a table whose own entry is Live resolves successfully with its
correct name and id even when the owning database's entry is tombstoned
or absent; the database name output is then the fixed sentinel
"__deleted_database__" instead of a failure. -/
theorem C2_table_survives_deleted_database
    (metadata : cluster_semilattice_metadata_t) (table_id : namespace_id_t)
    (entry : deletable_t namespace_semilattice_metadata_t)
    (identifier_format : admin_identifier_format_t)
    (hfind : map_find metadata.rdb_namespaces table_id = some entry)
    (hlive : entry.is_deleted = false)
    (hdb : map_find metadata.databases.databases entry.get_ref.database = none ∨
      ∃ db_entry, map_find metadata.databases.databases entry.get_ref.database =
        some db_entry ∧ db_entry.is_deleted = true) :
    convert_table_id_to_datums table_id identifier_format metadata =
      some (convert_name_or_uuid_to_datum entry.get_ref.name table_id
          identifier_format,
        entry.get_ref.name,
        convert_name_or_uuid_to_datum
          (name_string_t.guarantee_valid ("__deleted_database__".toList))
          entry.get_ref.database identifier_format,
        name_string_t.guarantee_valid ("__deleted_database__".toList)) := by
  rcases hdb with hnone | ⟨db_entry, hsome, hdel⟩
  · simp [convert_table_id_to_datums, hfind, hlive, hnone]
  · simp [convert_table_id_to_datums, hfind, hlive, hsome, hdel]

/-- C2 witness: table `uuid2` is Live and owned by tombstoned database
`uuid1`; resolution succeeds with the sentinel database name. -/
theorem C2_witness :
    convert_table_id_to_datums uuid2 .name meta_table =
      some (convert_name_or_uuid_to_datum name_t uuid2 .name, name_t,
        convert_name_or_uuid_to_datum
          (name_string_t.guarantee_valid ("__deleted_database__".toList)) uuid1 .name,
        name_string_t.guarantee_valid ("__deleted_database__".toList)) :=
  C2_table_survives_deleted_database meta_table uuid2 ⟨false, ⟨name_t, uuid1⟩⟩ .name
    rfl rfl (Or.inr ⟨⟨true, ⟨name_a⟩⟩, rfl, rfl⟩)

/-- C3 counterexample: with identifier_format = uuid, whether the call
succeeds is not independent of the snapshot's contents — the same
database id encodes successfully against a snapshot where its entry is
Live and returns false against one where it is tombstoned. -/
theorem C3_counterexample :
    convert_database_id_to_datum uuid1 .uuid meta_live =
      .ok (.R_STR (uuid_to_str uuid1), name_a) ∧
    convert_database_id_to_datum uuid1 .uuid meta_tomb = .failed :=
  ⟨rfl, rfl⟩

/-- C3 amended: with identifier_format = uuid the rendered datum is the
id's canonical UUID text, independent of the entry's recorded name; but
whether the call succeeds still depends on the snapshot — the server
encoder needs a resolvable (Live) name and the database encoder needs a
present, Live entry. -/
theorem C3_uuid_encode_amended (client : server_config_client_t)
    (metadata : cluster_semilattice_metadata_t) (server_id : server_id_t)
    (db_id : database_id_t) (server_name : name_string_t)
    (db_entry : deletable_t database_semilattice_metadata_t)
    (hs : get_name_for_server_id client server_id = some server_name)
    (hdb : map_find metadata.databases.databases db_id = some db_entry)
    (hlive : db_entry.is_deleted = false) :
    convert_server_id_to_datum server_id .uuid client =
      some (.R_STR (uuid_to_str server_id), server_name) ∧
    convert_database_id_to_datum db_id .uuid metadata =
      .ok (.R_STR (uuid_to_str db_id), db_entry.get_ref.name) := by
  constructor
  · simp [convert_server_id_to_datum, hs, convert_name_or_uuid_to_datum,
      convert_uuid_to_datum]
  · simp [convert_database_id_to_datum, hdb, hlive, convert_name_or_uuid_to_datum,
      convert_uuid_to_datum]

/-- C3 witness: against `client_one`/`meta_live`, uuid-format encoding
of `uuid1` yields its canonical text. -/
theorem C3_witness :
    convert_server_id_to_datum uuid1 .uuid client_one =
      some (.R_STR (uuid_to_str uuid1), name_a) ∧
    convert_database_id_to_datum uuid1 .uuid meta_live =
      .ok (.R_STR (uuid_to_str uuid1), name_a) :=
  C3_uuid_encode_amended client_one meta_live uuid1 uuid1 name_a ⟨false, ⟨name_a⟩⟩
    rfl rfl rfl

/-- C4 counterexample: server `uuid1` has a Live entry in `client_dup`,
but a second Live server shares its name, so the name-format
encode-then-decode roundtrip fails (Ambiguous) instead of returning the
id. -/
theorem C4_counterexample :
    convert_server_id_to_datum uuid1 .name client_dup =
      some (.R_STR ("a".toList), name_a) ∧
    (convert_server_id_from_datum (.R_STR ("a".toList)) .name client_dup outs0).1 =
      false :=
  ⟨rfl, rfl⟩

/-- C4 amended: for every id with a Live entry and both formats,
decoding the encoded datum against the same snapshot returns the id —
provided that in name format the id's entry is the only Live entry
bearing its name. -/
theorem C4_roundtrip_amended (client : server_config_client_t)
    (server_id : server_id_t) (name : name_string_t) (outs : server_id_outs)
    (f : admin_identifier_format_t)
    (hlive : get_name_for_server_id client server_id = some name)
    (hvalid : name.str.all name_valid_char = true)
    (huniq : f = .name → name_to_server_id_map client name = [server_id]) :
    ∃ d, convert_server_id_to_datum server_id f client = some (d, name) ∧
      convert_server_id_from_datum d f client outs =
        (true, { outs with server_id_out := server_id, server_name_out := name }) := by
  cases f with
  | name =>
    refine ⟨.R_STR name.str, ?_, ?_⟩
    · simp [convert_server_id_to_datum, hlive, convert_name_or_uuid_to_datum,
        convert_name_to_datum]
    · have hmap := huniq rfl
      simp [convert_server_id_from_datum, parse_valid_name name _ hvalid, hmap]
  | uuid =>
    refine ⟨.R_STR (uuid_to_str server_id), ?_, ?_⟩
    · simp [convert_server_id_to_datum, hlive, convert_name_or_uuid_to_datum,
        convert_uuid_to_datum]
    · simp [convert_server_id_from_datum, convert_uuid_from_datum,
        str_to_uuid_uuid_to_str, hlive]

/-- C4 witness: in `client_one`, `uuid1` is the unique Live holder of
its name and the name-format roundtrip returns it. -/
theorem C4_witness :
    ∃ d, convert_server_id_to_datum uuid1 .name client_one = some (d, name_a) ∧
      convert_server_id_from_datum d .name client_one outs0 =
        (true, { outs0 with server_id_out := uuid1, server_name_out := name_a }) :=
  C4_roundtrip_amended client_one uuid1 name_a outs0 .name rfl (by decide)
    (fun _ => rfl)

/-- C10: whenever `convert_server_id_from_datum` returns false — name
parse failure, UUID parse failure, NotFound or Ambiguous — the
`server_id_out` and `server_name_out` out-parameters hold their initial
values; only the error string is written. -/
theorem server_from_datum_failure_frame (d : datum_t)
    (f : admin_identifier_format_t) (client : server_config_client_t)
    (outs : server_id_outs) (b : Bool) (outs2 : server_id_outs)
    (h : convert_server_id_from_datum d f client outs = (b, outs2)) :
    b = true ∨ (outs2.server_id_out = outs.server_id_out ∧
      outs2.server_name_out = outs.server_name_out) := by
  cases f <;> dsimp only [convert_server_id_from_datum] at h
  case name =>
    split at h
    · injection h with hb ho; subst hb; subst ho; exact Or.inr ⟨rfl, rfl⟩
    · split at h
      · injection h with hb ho; subst hb; subst ho; exact Or.inr ⟨rfl, rfl⟩
      · injection h with hb ho; subst hb; subst ho; exact Or.inl rfl
      · injection h with hb ho; subst hb; subst ho; exact Or.inr ⟨rfl, rfl⟩
  case uuid =>
    split at h
    · injection h with hb ho; subst hb; subst ho; exact Or.inr ⟨rfl, rfl⟩
    · split at h
      · injection h with hb ho; subst hb; subst ho; exact Or.inr ⟨rfl, rfl⟩
      · injection h with hb ho; subst hb; subst ho; exact Or.inl rfl

/-- C10: whenever `convert_server_id_from_datum` returns false — name
parse failure, UUID parse failure, NotFound or Ambiguous — the
`server_id_out` and `server_name_out` out-parameters hold their initial
values; only the error string is written. -/
theorem C10_failure_leaves_outputs (d : datum_t)
    (f : admin_identifier_format_t) (client : server_config_client_t)
    (outs : server_id_outs)
    (hfail : (convert_server_id_from_datum d f client outs).1 = false) :
    (convert_server_id_from_datum d f client outs).2.server_id_out =
      outs.server_id_out ∧
    (convert_server_id_from_datum d f client outs).2.server_name_out =
      outs.server_name_out := by
  rcases server_from_datum_failure_frame d f client outs
      (convert_server_id_from_datum d f client outs).1
      (convert_server_id_from_datum d f client outs).2 rfl with htrue | hframe
  · rw [hfail] at htrue; exact absurd htrue (by simp)
  · exact hframe

/-- C10 witness: decoding a null datum in name format fails and leaves
the id and name out-parameters at their initial values. -/
theorem C10_witness :
    (convert_server_id_from_datum .R_NULL .name client_one outs0).2.server_id_out =
      outs0.server_id_out ∧
    (convert_server_id_from_datum .R_NULL .name client_one outs0).2.server_name_out =
      outs0.server_name_out :=
  C10_failure_leaves_outputs .R_NULL .name client_one outs0 rfl

/-- C1: name-format identifier decoding against a snapshot: zero Live
entries with the parsed name fail with the NotFound error citing the
name; more than one Live entry fails with the Ambiguous error citing the
name (a failure distinct from NotFound); exactly one succeeds with that
entry's id — for servers and for databases. -/
theorem C1_name_decode_trichotomy (client : server_config_client_t)
    (metadata : cluster_semilattice_metadata_t) (name : name_string_t)
    (outs : server_id_outs)
    (hvalid : name.str.all name_valid_char = true) :
    (name_to_server_id_map client name = [] →
      convert_server_id_from_datum (.R_STR name.str) .name client outs =
        (false, { outs with error_out :=
          "Server `".toList ++ name.str ++ "` does not exist.".toList }) ∧
      cites name.str
        ("Server `".toList ++ name.str ++ "` does not exist.".toList)) ∧
    (∀ x y l, name_to_server_id_map client name = x :: y :: l →
      convert_server_id_from_datum (.R_STR name.str) .name client outs =
        (false, { outs with error_out := "Server `".toList ++ name.str ++
          "` is ambiguous; there are multiple servers with that name.".toList }) ∧
      cites name.str ("Server `".toList ++ name.str ++
        "` is ambiguous; there are multiple servers with that name.".toList)) ∧
    (∀ server_id, name_to_server_id_map client name = [server_id] →
      convert_server_id_from_datum (.R_STR name.str) .name client outs =
        (true, { outs with server_id_out := server_id, server_name_out := name })) ∧
    (db_live_matches metadata name = [] →
      convert_database_id_from_datum (.R_STR name.str) .name metadata =
        .error ("Database `".toList ++ name.str ++ "` does not exist.".toList) ∧
      cites name.str
        ("Database `".toList ++ name.str ++ "` does not exist.".toList)) ∧
    (∀ x y l, db_live_matches metadata name = x :: y :: l →
      convert_database_id_from_datum (.R_STR name.str) .name metadata =
        .error ("Database `".toList ++ name.str ++
          "` is ambiguous; there are multiple databases with that name.".toList) ∧
      cites name.str ("Database `".toList ++ name.str ++
        "` is ambiguous; there are multiple databases with that name.".toList)) ∧
    (∀ db_id, db_live_matches metadata name = [db_id] →
      convert_database_id_from_datum (.R_STR name.str) .name metadata =
        .ok (db_id, name)) ∧
    ("Server `".toList ++ name.str ++ "` does not exist.".toList ≠
      "Server `".toList ++ name.str ++
        "` is ambiguous; there are multiple servers with that name.".toList) ∧
    ("Database `".toList ++ name.str ++ "` does not exist.".toList ≠
      "Database `".toList ++ name.str ++
        "` is ambiguous; there are multiple databases with that name.".toList) := by
  have hp : ∀ what, convert_name_from_datum (.R_STR name.str) what = .ok name :=
    fun what => parse_valid_name name what hvalid
  refine ⟨fun hmap => ⟨?_, ?_⟩, fun x y l hmap => ⟨?_, ?_⟩, fun sid hmap => ?_,
    fun hmap => ⟨?_, ?_⟩, fun x y l hmap => ⟨?_, ?_⟩, fun dbid hmap => ?_, ?_, ?_⟩
  · simp only [convert_server_id_from_datum, hp, hmap]
  · exact ⟨"Server `".toList, "` does not exist.".toList, by simp⟩
  · simp only [convert_server_id_from_datum, hp, hmap]
  · exact ⟨"Server `".toList,
      "` is ambiguous; there are multiple servers with that name.".toList, by simp⟩
  · simp only [convert_server_id_from_datum, hp, hmap]
  · simp only [convert_database_id_from_datum, hp, hmap]
  · exact ⟨"Database `".toList, "` does not exist.".toList, by simp⟩
  · simp only [convert_database_id_from_datum, hp, hmap]
  · exact ⟨"Database `".toList,
      "` is ambiguous; there are multiple databases with that name.".toList, by simp⟩
  · simp only [convert_database_id_from_datum, hp, hmap]
  · intro h
    simp only [List.append_assoc] at h
    have h1 := List.append_cancel_left h
    have h2 := List.append_cancel_left h1
    exact absurd h2 (by decide)
  · intro h
    simp only [List.append_assoc] at h
    have h1 := List.append_cancel_left h
    have h2 := List.append_cancel_left h1
    exact absurd h2 (by decide)

/-- C1 witness: decoding the name "a": zero Live servers (fails), one
Live server (succeeds with its id), two Live databases (fails with the
Ambiguous message). -/
theorem C1_witness :
    (convert_server_id_from_datum (.R_STR name_a.str) .name client_empty
      outs0).1 = false ∧
    convert_server_id_from_datum (.R_STR name_a.str) .name client_one outs0 =
      (true, { outs0 with server_id_out := uuid1, server_name_out := name_a }) ∧
    convert_database_id_from_datum (.R_STR name_a.str) .name meta_dup =
      .error ("Database `".toList ++ name_a.str ++
        "` is ambiguous; there are multiple databases with that name.".toList) := by
  have h0 := C1_name_decode_trichotomy client_empty meta_dup name_a outs0 (by decide)
  have h1 := C1_name_decode_trichotomy client_one meta_live name_a outs0 (by decide)
  refine ⟨?_, ?_, ?_⟩
  · rw [(h0.1 rfl).1]
  · exact h1.2.2.1 uuid1 rfl
  · exact (h0.2.2.2.2.1 uuid1 uuid2 [] rfl).1

end RethinkDB
